import Mathlib

/-!
Shallow embedding of the PI7C9XG404 register dumper (src/src/main.rs).

The program encodes a (port, 16-bit offset) pair into a 4-byte command
frame, performs one write-then-read bus transaction per register, and
sweeps all four port banks. Machine integers are modelled as Nat with
explicit truncation where the source casts to u8.
-/

namespace Regdump

/-- The four logical ports of the switch (main.rs, enum Port). -/
inductive Port where
  | Port0
  | Port1
  | Port2
  | Port3
deriving DecidableEq, Fintype

/-- Size of one port register bank in bytes (main.rs, PORT_SIZE = 0x200). -/
def PORT_SIZE : Nat := 0x200

/-- Byte-0 read command code (main.rs, B0Cmd::READ). -/
def B0Cmd_READ : Nat := 0b100

/-- Byte-1 port-select constants (main.rs, bitflags B1PortSel). -/
def B1PortSel : Port → Nat
  | .Port0 => 0b0
  | .Port1 => 0b0
  | .Port2 => 0b1
  | .Port3 => 0b1

/-- Byte-2 port-select constants (main.rs, bitflags B2PortSel). -/
def B2PortSel : Port → Nat
  | .Port0 => 0b0 <<< 7
  | .Port1 => 0b1 <<< 7
  | .Port2 => 0b0 <<< 7
  | .Port3 => 0b1 <<< 7

/-- Byte-2 all-lanes byte-enable mask (main.rs, B2ByteEnable::ALL). -/
def B2ByteEnable_ALL : Nat := 0b1111 <<< 2

/-- The 4-byte command frame write_data built by read_reg (main.rs lines
57-76). The two casts of the u16 offset to u8 are modelled as mod 256. -/
def read_reg_frame (port : Port) (offset : Nat) : List Nat :=
  [B0Cmd_READ,
   B1PortSel port,
   B2PortSel port ||| B2ByteEnable_ALL ||| (offset >>> 10 % 256),
   offset >>> 2 % 256]

/-- Byte i of the command frame (defaults to 0 out of range). -/
def frameByte (port : Port) (offset : Nat) (i : Nat) : Nat :=
  (read_reg_frame port offset).getD i 0

/-- Spec-side definition: port sub-field A of byte 1 (spec section 4.1,
step 2: Port0 and Port1 map to 0, Port2 and Port3 map to 1). -/
def subFieldA : Port → Nat
  | .Port0 => 0
  | .Port1 => 0
  | .Port2 => 1
  | .Port3 => 1

/-- Spec-side definition: port sub-field B, placed at bit 7 of byte 2
(spec section 4.1, step 3a: Port0 and Port2 map to 0, Port1 and Port3
map to 1). -/
def subFieldB : Port → Nat
  | .Port0 => 0
  | .Port1 => 1
  | .Port2 => 0
  | .Port3 => 1

/-- Spec-side definition: decode a (sub-field A, sub-field B) pair back
to a port, following the mapping claimed in the spec. -/
def decodePortPair (a b : Nat) : Option Port :=
  match a, b with
  | 0, 0 => some .Port0
  | 0, 1 => some .Port1
  | 1, 0 => some .Port2
  | 1, 1 => some .Port3
  | _, _ => none

/-- A bus transaction error (LinuxI2CError in the source, kept opaque). -/
structure BusError where
  msg : String

/-- The bus transport: given the 4-byte write frame and the initial
contents of the read buffer, it returns the transaction result and the
contents of the read buffer after the attempt (the transport may or may
not have stored reply bytes into it). -/
abbrev Bus := List Nat → List Nat → Except BusError Unit × List Nat

/-- read_reg (main.rs lines 56-88): build the frame, zero-initialize the
4-byte read buffer, run the transfer; on transfer error only log it
(eprintln) and fall through, returning Ok with the buffer contents. -/
def read_reg (bus : Bus) (port : Port) (offset : Nat) :
    Except BusError (List Nat) :=
  let write_data := read_reg_frame port offset
  let res := bus write_data [0, 0, 0, 0]
  match res.1 with
  | .ok _ => .ok res.2
  | .error _ => .ok res.2

/-- print_port_regs (main.rs lines 90-97): for reg in 0..(PORT_SIZE/4),
read the register at offset reg*4, propagating any read_reg error; the
result models the ordered list of (offset, value) lines printed. -/
def print_port_regs (bus : Bus) (port : Port) :
    Except BusError (List (Nat × List Nat)) :=
  (List.range (PORT_SIZE / 4)).mapM (fun reg => do
    let val ← read_reg bus port (reg * 4)
    pure (reg * 4, val))

/-- The sweep performed by main (main.rs lines 157-160): dump Port0,
Port1, Port2, Port3 in that order, stopping at the first error (the
source unwraps, which aborts the process on an error). -/
def main_dump (bus : Bus) :
    Except BusError (List (Port × List (Nat × List Nat))) := do
  let r0 ← print_port_regs bus .Port0
  let r1 ← print_port_regs bus .Port1
  let r2 ← print_port_regs bus .Port2
  let r3 ← print_port_regs bus .Port3
  pure [(.Port0, r0), (.Port1, r1), (.Port2, r2), (.Port3, r3)]

/-- Closed form of the list of (offset, value) pairs produced by one
port sweep; print_port_regs is proved equal to this below. -/
def port_dump (bus : Bus) (q : Port) : List (Nat × List Nat) :=
  (List.range 128).map fun r =>
    (r * 4, (bus (read_reg_frame q (r * 4)) [0, 0, 0, 0]).2)

theorem read_reg_eq (bus : Bus) (port : Port) (offset : Nat) :
    read_reg bus port offset =
      .ok (bus (read_reg_frame port offset) [0, 0, 0, 0]).2 := by
  unfold read_reg
  cases h : (bus (read_reg_frame port offset) [0, 0, 0, 0]).1 <;> simp [h]

theorem shiftRight_land_distrib (x y n : Nat) :
    (x &&& y) >>> n = (x >>> n) &&& (y >>> n) := by
  apply Nat.eq_of_testBit_eq
  intro i
  simp [Nat.testBit_shiftRight, Nat.testBit_and]

theorem land_FFC (x : Nat) : x &&& 0x0FFC = x / 4 % 1024 * 4 := by
  have hm : (x &&& 0x0FFC) % 4 = 0 := by
    have h3 : (x &&& 0x0FFC) &&& 3 = (x &&& 0x0FFC) % 4 := by
      have := Nat.and_pow_two_sub_one_eq_mod (x &&& 0x0FFC) 2
      norm_num at this
      exact this
    have h0 : (x &&& 0x0FFC) &&& 3 = 0 := by
      have h4 : (0x0FFC &&& 3 : Nat) = 0 := by decide
      rw [Nat.and_assoc, h4, Nat.and_zero]
    omega
  have hd : (x &&& 0x0FFC) / 4 = x / 4 % 1024 := by
    have h1 : (x &&& 0x0FFC) >>> 2 = (x >>> 2) &&& (0x0FFC >>> 2) :=
      shiftRight_land_distrib x 0x0FFC 2
    have hc : (0x0FFC >>> 2 : Nat) = 1023 := by decide
    rw [hc] at h1
    have h2 : (x >>> 2) &&& 1023 = (x >>> 2) % 1024 := by
      have := Nat.and_pow_two_sub_one_eq_mod (x >>> 2) 10
      norm_num at this
      exact this
    rw [h2] at h1
    rw [Nat.shiftRight_eq_div_pow, Nat.shiftRight_eq_div_pow] at h1
    norm_num at h1
    omega
  omega

theorem or_absorb_low2 :
    ∀ w, w < 64 →
      ((0b0 <<< 7 : Nat) ||| (0b1111 <<< 2) ||| w =
        (0b0 <<< 7 : Nat) ||| (0b1111 <<< 2) ||| (w % 4)) ∧
      ((0b1 <<< 7 : Nat) ||| (0b1111 <<< 2) ||| w =
        (0b1 <<< 7 : Nat) ||| (0b1111 <<< 2) ||| (w % 4)) := by
  decide

/-- C1: for every port and every 4-aligned offset below 0x200, the
encoder produces the frame byte 0 = 0b100, byte 1 = sub-field A, byte 2
= (sub-field B shifted to bit 7) or-ed with the all-lanes byte-enable
mask or-ed with offset right-shifted by 10, byte 3 = offset
right-shifted by 2. -/
theorem C1_frame_encoding (p : Port) (o : Nat) (h1 : o < 0x200)
    (h2 : o % 4 = 0) :
    read_reg_frame p o =
      [0b100, subFieldA p,
       subFieldB p <<< 7 ||| 0b1111 <<< 2 ||| (o >>> 10), o >>> 2] := by
  have hz : o >>> 10 = 0 := by
    rw [Nat.shiftRight_eq_div_pow]
    norm_num
    omega
  have hz2 : o >>> 2 % 256 = o >>> 2 := by
    rw [Nat.shiftRight_eq_div_pow]
    norm_num
    omega
  cases p <;>
    simp [read_reg_frame, B0Cmd_READ, B1PortSel, B2PortSel, subFieldA,
      subFieldB, B2ByteEnable_ALL, hz, hz2]

theorem C1_frame_encoding_witness :
    read_reg_frame Port.Port3 0x4 =
      [0b100, subFieldA Port.Port3,
       subFieldB Port.Port3 <<< 7 ||| 0b1111 <<< 2 ||| (0x4 >>> 10),
       0x4 >>> 2] :=
  C1_frame_encoding Port.Port3 0x4 (by decide) (by decide)

/-- C4: for every port and every 4-aligned offset below 0x200,
reconstructing the offset from the frame as ((byte2 and 0b11) shifted
left 10) or-ed with (byte3 shifted left 2) gives back the offset. -/
theorem C4_offset_roundtrip (p : Port) (o : Nat) (h1 : o < 0x200)
    (h2 : o % 4 = 0) :
    (frameByte p o 2 &&& 0b11) <<< 10 ||| frameByte p o 3 <<< 2 = o := by
  have hz : o >>> 10 = 0 := by
    rw [Nat.shiftRight_eq_div_pow]
    norm_num
    omega
  have key : o >>> 2 <<< 2 = o := by
    rw [Nat.shiftRight_eq_div_pow, Nat.shiftLeft_eq]
    norm_num
    omega
  have hz2 : o >>> 2 % 256 = o >>> 2 := by
    rw [Nat.shiftRight_eq_div_pow]
    norm_num
    omega
  cases p <;>
    simp [frameByte, read_reg_frame, B1PortSel, B2PortSel,
      B2ByteEnable_ALL, hz, hz2, key,
      show (60 &&& 3 : Nat) = 0 from by decide,
      show (188 &&& 3 : Nat) = 0 from by decide]

theorem C4_offset_roundtrip_witness :
    (frameByte Port.Port1 0x1FC 2 &&& 0b11) <<< 10 |||
      frameByte Port.Port1 0x1FC 3 <<< 2 = 0x1FC :=
  C4_offset_roundtrip Port.Port1 0x1FC (by decide) (by decide)

/-- C5: for every port and in-range offset, decoding the pair (byte 1,
bit 7 of byte 2) of the frame by the spec's mapping recovers exactly the
original port, and no two distinct ports share a (sub-field A,
sub-field B) pair. -/
theorem C5_port_roundtrip (p : Port) (o : Nat) (h1 : o < 0x200) :
    decodePortPair (frameByte p o 1) (frameByte p o 2 >>> 7) = some p ∧
      ∀ q : Port, subFieldA p = subFieldA q → subFieldB p = subFieldB q →
        p = q := by
  have hz : o >>> 10 = 0 := by
    rw [Nat.shiftRight_eq_div_pow]
    norm_num
    omega
  constructor
  · cases p <;>
      simp [frameByte, read_reg_frame, B1PortSel, B2PortSel,
        B2ByteEnable_ALL, hz, decodePortPair]
  · revert p
    decide

theorem C5_port_roundtrip_witness :
    decodePortPair (frameByte Port.Port2 0x10 1)
      (frameByte Port.Port2 0x10 2 >>> 7) = some Port.Port2 :=
  (C5_port_roundtrip Port.Port2 0x10 (by decide)).1

/-- C7: for every port and every 16-bit offset, bits 2 through 5 of
byte 2 of the command frame are all set: the byte-enable mask is always
exactly all four lanes enabled. -/
theorem C7_byte_enable_all (p : Port) (o : Nat) (_h : o < 65536) :
    (frameByte p o 2).testBit 2 = true ∧
      (frameByte p o 2).testBit 3 = true ∧
      (frameByte p o 2).testBit 4 = true ∧
      (frameByte p o 2).testBit 5 = true := by
  cases p <;>
    simp [frameByte, read_reg_frame, B2PortSel, B2ByteEnable_ALL,
      Nat.testBit_or,
      show Nat.testBit 60 2 = true from by decide,
      show Nat.testBit 60 3 = true from by decide,
      show Nat.testBit 60 4 = true from by decide,
      show Nat.testBit 60 5 = true from by decide,
      show Nat.testBit 188 2 = true from by decide,
      show Nat.testBit 188 3 = true from by decide,
      show Nat.testBit 188 4 = true from by decide,
      show Nat.testBit 188 5 = true from by decide]

theorem C7_byte_enable_all_witness :
    (frameByte Port.Port2 0x1F0 2).testBit 2 = true :=
  (C7_byte_enable_all Port.Port2 0x1F0 (by decide)).1

theorem frame_mask (p : Port) (o : Nat) (h : o < 65536) :
    read_reg_frame p o = read_reg_frame p (o &&& 0x0FFC) := by
  have hl := land_FFC o
  have h10 : (o &&& 0x0FFC) >>> 10 = o >>> 10 % 4 := by
    rw [hl, Nat.shiftRight_eq_div_pow, Nat.shiftRight_eq_div_pow]
    norm_num
    omega
  have h2 : (o &&& 0x0FFC) >>> 2 % 256 = o >>> 2 % 256 := by
    rw [hl, Nat.shiftRight_eq_div_pow, Nat.shiftRight_eq_div_pow]
    norm_num
  have hu : o >>> 10 < 64 := by
    rw [Nat.shiftRight_eq_div_pow]
    norm_num
    omega
  have hm1 : o >>> 10 % 256 = o >>> 10 := Nat.mod_eq_of_lt (by omega)
  have hm2 : o >>> 10 % 4 % 256 = o >>> 10 % 4 := Nat.mod_eq_of_lt (by omega)
  cases p <;>
    simp [read_reg_frame, B2PortSel, B2ByteEnable_ALL, h10, h2, hm1,
      hm2] <;>
    first
    | exact (or_absorb_low2 (o >>> 10) hu).1
    | exact (or_absorb_low2 (o >>> 10) hu).2

/-- C9: the encoder validates nothing; for every port and every 16-bit
offset the frame equals the frame for the offset with bits 0, 1 and
12 to 15 cleared, so out-of-range offsets are accepted and offsets that
differ by 0x1000 produce byte-identical frames. -/
theorem C9_no_validation (p : Port) (o : Nat) (h : o < 65536) :
    read_reg_frame p o = read_reg_frame p (o &&& 0x0FFC) ∧
      (o + 0x1000 < 65536 →
        read_reg_frame p (o + 0x1000) = read_reg_frame p o) := by
  refine ⟨frame_mask p o h, fun h4 => ?_⟩
  have e : (o + 0x1000) &&& 0x0FFC = o &&& 0x0FFC := by
    rw [land_FFC, land_FFC]
    omega
  rw [frame_mask p (o + 0x1000) h4, e, ← frame_mask p o h]

theorem C9_no_validation_witness :
    read_reg_frame Port.Port0 0x1234 =
      read_reg_frame Port.Port0 (0x1234 &&& 0x0FFC) :=
  (C9_no_validation Port.Port0 0x1234 (by decide)).1

/-- C2: the claim states that a read-phase transaction failure makes
read_reg return an error to the caller; in the code the result of the
whole transfer, read phase included, is only logged, and read_reg
returns Ok unconditionally, so no transaction outcome ever produces an
error. This theorem refutes the claim as stated. -/
theorem C2_counterexample : ¬ ∃ (bus : Bus) (p : Port) (o : Nat)
    (e : BusError), read_reg bus p o = Except.error e := by
  rintro ⟨bus, p, o, e, h⟩
  rw [read_reg_eq] at h
  exact Except.noConfusion h

/-- C2 amended: read_reg never fails; every transfer error, read phase
included, is logged and swallowed, and read_reg returns Ok with the
current read-buffer contents for every bus outcome. -/
theorem C2_amended_read_reg_total (bus : Bus) (p : Port) (o : Nat) :
    ∃ v, read_reg bus p o = Except.ok v :=
  ⟨_, read_reg_eq bus p o⟩

/-- C3: when the bus transfer fails, read_reg does not re-raise the
error: it returns Ok with whatever the read buffer holds after the
failed transaction. -/
theorem C3_write_error_tolerated (bus : Bus) (p : Port) (o : Nat)
    (e : BusError) (buf : List Nat)
    (h : bus (read_reg_frame p o) [0, 0, 0, 0] = (Except.error e, buf)) :
    read_reg bus p o = Except.ok buf := by
  rw [read_reg_eq, h]

theorem C3_write_error_tolerated_witness :
    read_reg (fun _ _ => (Except.error ⟨"transfer failed"⟩, [7, 7, 7, 7]))
      Port.Port0 0 = Except.ok [7, 7, 7, 7] :=
  C3_write_error_tolerated _ Port.Port0 0 ⟨"transfer failed"⟩
    [7, 7, 7, 7] rfl

/-- C10: the read buffer is zero-initialized, so when the transaction
fails and the transport stores nothing, read_reg returns Ok with four
zero bytes, indistinguishable from a successful read of an all-zero
register. -/
theorem C10_failed_read_zeros (bus bus2 : Bus) (p : Port) (o : Nat)
    (e : BusError)
    (h : bus (read_reg_frame p o) [0, 0, 0, 0] =
      (Except.error e, [0, 0, 0, 0]))
    (h2 : bus2 (read_reg_frame p o) [0, 0, 0, 0] =
      (Except.ok (), [0, 0, 0, 0])) :
    read_reg bus p o = Except.ok [0, 0, 0, 0] ∧
      read_reg bus p o = read_reg bus2 p o := by
  constructor
  · rw [read_reg_eq, h]
  · rw [read_reg_eq, read_reg_eq, h, h2]

theorem C10_failed_read_zeros_witness :
    read_reg (fun _ _ => (Except.error ⟨"nack"⟩, [0, 0, 0, 0]))
      Port.Port1 8 = Except.ok [0, 0, 0, 0] :=
  (C10_failed_read_zeros _ (fun _ _ => (Except.ok (), [0, 0, 0, 0]))
    Port.Port1 8 ⟨"nack"⟩ rfl rfl).1

theorem mapM_loop_ok {α β : Type} (f : α → Except BusError β)
    (g : α → β) (hf : ∀ a, f a = .ok (g a)) :
    ∀ (l : List α) (acc : List β),
      List.mapM.loop f l acc = .ok (acc.reverse ++ l.map g) := by
  intro l
  induction l with
  | nil =>
    intro acc
    have hp : (pure acc.reverse : Except BusError (List β)) =
        Except.ok acc.reverse := rfl
    simp [List.mapM.loop, hp]
  | cons a l ih =>
    intro acc
    have step : List.mapM.loop f (a :: l) acc =
        List.mapM.loop f l (g a :: acc) := by
      show f a >>= (fun b => List.mapM.loop f l (b :: acc)) =
        List.mapM.loop f l (g a :: acc)
      rw [hf a]
      rfl
    rw [step, ih]
    simp

theorem mapM_ok_of_ok {α β : Type} (f : α → Except BusError β)
    (g : α → β) (hf : ∀ a, f a = .ok (g a)) :
    ∀ l : List α, l.mapM f = .ok (l.map g) := by
  intro l
  have h0 : l.mapM f = List.mapM.loop f l [] := rfl
  rw [h0, mapM_loop_ok f g hf l []]
  simp

theorem print_port_regs_eq (bus : Bus) (p : Port) :
    print_port_regs bus p = Except.ok (port_dump bus p) := by
  unfold print_port_regs port_dump
  rw [show PORT_SIZE / 4 = 128 from rfl]
  exact mapM_ok_of_ok _ _ (fun r => by rw [read_reg_eq]; rfl) _

theorem port_offsets_pairwise :
    List.Pairwise (· < ·) ((List.range 128).map fun r => r * 4) :=
  List.Pairwise.map (fun r => r * 4)
    (fun a b hab => show a * 4 < b * 4 by omega)
    (List.pairwise_lt_range 128)

/-- C6: for every bus and port the sweep succeeds with exactly 128
entries, whose offsets are strictly ascending, all multiples of 4, with
no duplicates, and are exactly the 4-aligned offsets below 0x200. -/
theorem C6_port_sweep (bus : Bus) (p : Port) :
    ∃ l, print_port_regs bus p = Except.ok l ∧
      l.length = 128 ∧
      List.Pairwise (· < ·) (l.map Prod.fst) ∧
      (l.map Prod.fst).Nodup ∧
      (∀ o ∈ l.map Prod.fst, o % 4 = 0) ∧
      (∀ o, o ∈ l.map Prod.fst ↔ o < 0x200 ∧ o % 4 = 0) := by
  have hm : (port_dump bus p).map Prod.fst =
      (List.range 128).map (fun r => r * 4) := by
    simp [port_dump, List.map_map, Function.comp]
  refine ⟨port_dump bus p, print_port_regs_eq bus p, ?_, ?_, ?_, ?_, ?_⟩
  · simp [port_dump]
  · rw [hm]
    exact port_offsets_pairwise
  · rw [hm]
    exact List.Pairwise.imp (fun hab => Nat.ne_of_lt hab)
      port_offsets_pairwise
  · intro o ho
    simp [port_dump, List.mem_map] at ho
    obtain ⟨r, hr, rfl⟩ := ho
    omega
  · intro o
    constructor
    · intro ho
      simp [port_dump, List.mem_map] at ho
      obtain ⟨r, hr, rfl⟩ := ho
      omega
    · rintro ⟨hlt, hmod⟩
      simp [port_dump, List.mem_map]
      exact ⟨o / 4, by omega, by omega⟩

/-- C8: the full dump sweeps exactly the four ports in the fixed order
Port0, Port1, Port2, Port3. -/
theorem C8_all_ports_order (bus : Bus) :
    ∃ l, main_dump bus = Except.ok l ∧
      l.map Prod.fst = [Port.Port0, Port.Port1, Port.Port2, Port.Port3] := by
  refine ⟨[(Port.Port0, port_dump bus Port.Port0),
    (Port.Port1, port_dump bus Port.Port1),
    (Port.Port2, port_dump bus Port.Port2),
    (Port.Port3, port_dump bus Port.Port3)], ?_, by simp⟩
  unfold main_dump
  rw [print_port_regs_eq, print_port_regs_eq, print_port_regs_eq,
    print_port_regs_eq]
  rfl

end Regdump
